import Mathlib

/-!
# GoMyProfile: user aggregate, authentication and profile update

A shallow embedding of the Go packages `handler/model/user`, `handler/app`
and `handler` (endpoints, token) together with the repository interface they
consume.

Conventions of the embedding

* A Go `string` is a Lean `String` (text that is valid UTF-8, which is what
  `encoding/json` hands to the handlers).  Go `len(s)` is the number of bytes,
  `String.utf8ByteSize`; `for _, c := range s` walks the code points, `s.data`.
* A Go `[]byte` is a `List Byte` with `Byte = Fin 256`.
* A Go `error` is a value of `Error`; a nil error is `none`.
* A `*User` that may be nil is an `Option User`; a method that mutates its
  receiver returns the receiver's new value next to its Go result.
* Library code that is not part of the repository (`pbkdf2.Key`,
  `crypto/rand.Read`, the JWT signer, the clock, the database behind the
  repository interface) is a parameter of the functions that call it.
-/

namespace GoMyProfile

/-! ## Basic types -/

/-- One octet of a Go byte slice. -/
abbrev Byte := Fin 256

/-- Go error values that occur in the program.  `new msg` is the value of an
`errors.New(msg)` written inside a function body, `AuthenticationError` the
string type of `app/auth.go`, the two `Err...` constructors the package level
sentinels, and `external` any error produced by a library (database driver,
random source, signer, request binder). -/
inductive Error where
  | new (msg : String)
  | AuthenticationError (msg : String)
  | ErrPhoneNumberAlreadyTaken
  | ErrUniqueViolation
  | external (code : Nat)
  deriving DecidableEq, Repr

/-- Go `len(s)` for a string: its length in bytes. -/
def len (s : String) : Nat := s.utf8ByteSize

/-- Go `strings.HasPrefix(s, p)` for an ASCII prefix `p`: as every character of
`p` is one byte, the bytes of `p` start `s` exactly when its characters do. -/
def HasPrefix (s p : String) : Bool := p.data.isPrefixOf s.data

/-! ## `handler/model/user/user.go` -/

namespace user

/-- The account aggregate; fields as in the Go struct. -/
structure User where
  id : String
  phoneNumber : String
  fullName : String
  passwordHash : List Byte
  passwordSalt : List Byte
  deriving DecidableEq, Repr

def ValidPhoneNumberLength (phoneNumber : String) : Bool :=
  len phoneNumber ≥ 10 && len phoneNumber ≤ 13

def ValidPhoneNumberPrefix (phoneNumber : String) : Bool :=
  HasPrefix phoneNumber "+62"

def ValidFullNameLength (fullName : String) : Bool :=
  len fullName ≥ 3 && len fullName ≤ 60

/-- The loop of `containsUppercase` over the remaining code points. -/
def containsUppercaseLoop : List Char → Bool
  | [] => false
  | c :: cs => if 'A' ≤ c ∧ c ≤ 'Z' then true else containsUppercaseLoop cs

def containsUppercase (s : String) : Bool := containsUppercaseLoop s.data

/-- The loop of `containsNumber` over the remaining code points. -/
def containsNumberLoop : List Char → Bool
  | [] => false
  | c :: cs => if '0' ≤ c ∧ c ≤ '9' then true else containsNumberLoop cs

def containsNumber (s : String) : Bool := containsNumberLoop s.data

/-- The loop of `containsSpecialCharacter` over the remaining code points. -/
def containsSpecialCharacterLoop : List Char → Bool
  | [] => false
  | c :: cs =>
    if ¬ ('0' ≤ c ∧ c ≤ '9') ∧ ¬ ('A' ≤ c ∧ c ≤ 'Z') ∧ ¬ ('a' ≤ c ∧ c ≤ 'z') then true
    else containsSpecialCharacterLoop cs

def containsSpecialCharacter (s : String) : Bool := containsSpecialCharacterLoop s.data

def ValidPasswordStrength (password : String) : Bool :=
  if len password < 6 ∨ len password > 64 then false
  else if !containsUppercase password then false
  else if !containsNumber password then false
  else if !containsSpecialCharacter password then false
  else true

/-- Go `New`: the account, or the error of the first check that fails. -/
def New (id phoneNumber fullName : String) (passwordHash passwordSalt : List Byte) :
    Except Error User :=
  if id = "" then .error (.new "empty id")
  else if !ValidPhoneNumberLength phoneNumber then .error (.new "invalid phone number length")
  else if !ValidPhoneNumberPrefix phoneNumber then .error (.new "invalid phone number prefix")
  else if !ValidFullNameLength fullName then .error (.new "invalid full name length")
  else if passwordHash.length = 0 then .error (.new "empty password hash")
  else if passwordSalt.length = 0 then .error (.new "empty password salt")
  else .ok
    { id := id
      phoneNumber := phoneNumber
      fullName := fullName
      passwordHash := passwordHash
      passwordSalt := passwordSalt }

/-- Go `(*User).ChangePhoneNumber`: the receiver after the call and the
returned error. -/
def User.ChangePhoneNumber (u : User) (phoneNumber : String) : User × Option Error :=
  if !ValidPhoneNumberLength phoneNumber then (u, some (.new "invalid phone number length"))
  else if !ValidPhoneNumberPrefix phoneNumber then (u, some (.new "invalid phone number prefix"))
  else ({ u with phoneNumber := phoneNumber }, none)

/-- Go `(*User).ChangeFullName`: the receiver after the call and the returned
error. -/
def User.ChangeFullName (u : User) (fullName : String) : User × Option Error :=
  if !ValidFullNameLength fullName then (u, some (.new "invalid full name length"))
  else ({ u with fullName := fullName }, none)

/-! ## `handler/model/user/password.go` -/

/-- Go `[]byte(s)`: the UTF-8 bytes of a string. -/
def toBytes (s : String) : List Byte :=
  (s.data.flatMap String.utf8EncodeChar).map fun b => b.val

/-- The library function `pbkdf2.Key(password, salt, iter, keyLen, sha256.New)`
of `golang.org/x/crypto/pbkdf2`, a parameter of the embedding. -/
abbrev KeyFunc := List Byte → List Byte → Nat → Nat → List Byte

/-- What `pbkdf2.Key` documents about its result: a key of `keyLen` bytes. -/
def KeyFunc.ReturnsKeyLen (Key : KeyFunc) : Prop :=
  ∀ password salt iter keyLen, (Key password salt iter keyLen).length = keyLen

/-- A stand-in key function for concrete evaluations: the password bytes
followed by the salt, cut or zero-padded to `keyLen` bytes. -/
def sampleKey : KeyFunc := fun password salt _ keyLen =>
  ((password ++ salt) ++ List.replicate keyLen 0).take keyLen

/-- Outcome of one `crypto/rand.Read(b)`: an error, or the byte it wrote at
each index of `b`. -/
abbrev RandRead := Except Error (Nat → Byte)

/-- Go `genSalt`: `make([]byte, length)` filled by `rand.Read`. -/
def genSalt (rand : RandRead) (length : Nat) : Except Error (List Byte) :=
  match rand with
  | .error err => .error err
  | .ok fill => .ok ((List.range length).map fill)

def hashPassword (Key : KeyFunc) (password : String) (salt : List Byte) : List Byte :=
  let iterations := 10000
  let keyLength := 32
  Key (toBytes password) salt iterations keyLength

/-- Go `verifyPassword`; `bytes.Equal` is equality of the byte sequences. -/
def verifyPassword (Key : KeyFunc) (password : String) (salt hashedPassword : List Byte) :
    Bool :=
  decide (hashPassword Key password salt = hashedPassword)

def NewWithPassword (Key : KeyFunc) (rand : RandRead)
    (id phoneNumber fullName password : String) : Except Error User :=
  if !ValidPasswordStrength password then .error (.new "invalid password")
  else
    match genSalt rand 16 with
    | .error err => .error err
    | .ok salt =>
      let hash := hashPassword Key password salt
      New id phoneNumber fullName hash salt

def User.VerifyPassword (Key : KeyFunc) (u : User) (plain : String) : Bool :=
  verifyPassword Key plain u.passwordSalt u.passwordHash

/-- One call of `ChangeFullName` or `ChangePhoneNumber` with its argument. -/
inductive Mutation where
  | ChangeFullName (fullName : String)
  | ChangePhoneNumber (phoneNumber : String)
  deriving DecidableEq, Repr

/-- The account after one mutation call, whatever error the call returned. -/
def User.mutate (u : User) : Mutation → User
  | .ChangeFullName s => (u.ChangeFullName s).1
  | .ChangePhoneNumber s => (u.ChangePhoneNumber s).1

/-- The account after a sequence of mutation calls, first call first. -/
def User.mutateAll (u : User) (ms : List Mutation) : User := ms.foldl User.mutate u

end user

open user

/-! ## `repository/interfaces.go` -/

/-- Go `RepositoryInterface` over a store whose state has type `σ`: each
method maps the state before the call to its Go results and the state after.
A `(*user.User, error)` result is a pair, as any implementation of the
interface (the SQL one, a mock) may return either part nil or not. -/
structure RepositoryInterface (σ : Type) where
  Store : User → σ → Option Error × σ
  GetByID : String → σ → (Option User × Option Error) × σ
  GetByPhoneNumber : String → σ → (Option User × Option Error) × σ
  Update : User → σ → Option Error × σ

/-- The calls a request makes on its collaborators, recorded in order. -/
inductive Call where
  | Store (u : User)
  | GetByID (id : String)
  | GetByPhoneNumber (phoneNumber : String)
  | Update (u : User)
  | SignedString (subject : String) (issuedAt expiresAt : Int)
  deriving DecidableEq, Repr

/-- The store together with the record of the calls made so far. -/
structure World (σ : Type) where
  db : σ
  calls : List Call

/-- The call `userRepo.GetByID(id)`. -/
def RepositoryInterface.callGetByID {σ : Type} (repo : RepositoryInterface σ) (id : String)
    (w : World σ) : (Option User × Option Error) × World σ :=
  ((repo.GetByID id w.db).1, { db := (repo.GetByID id w.db).2, calls := w.calls ++ [.GetByID id] })

/-- The call `userRepo.GetByPhoneNumber(phoneNumber)`. -/
def RepositoryInterface.callGetByPhoneNumber {σ : Type} (repo : RepositoryInterface σ)
    (phoneNumber : String) (w : World σ) : (Option User × Option Error) × World σ :=
  ((repo.GetByPhoneNumber phoneNumber w.db).1,
    { db := (repo.GetByPhoneNumber phoneNumber w.db).2
      calls := w.calls ++ [.GetByPhoneNumber phoneNumber] })

/-- The call `userRepo.Update(usr)`. -/
def RepositoryInterface.callUpdate {σ : Type} (repo : RepositoryInterface σ) (usr : User)
    (w : World σ) : Option Error × World σ :=
  ((repo.Update usr w.db).1, { db := (repo.Update usr w.db).2, calls := w.calls ++ [.Update usr] })

/-- The call `userRepo.Store(usr)`. -/
def RepositoryInterface.callStore {σ : Type} (repo : RepositoryInterface σ) (usr : User)
    (w : World σ) : Option Error × World σ :=
  ((repo.Store usr w.db).1, { db := (repo.Store usr w.db).2, calls := w.calls ++ [.Store usr] })

/-! ## `handler/app/auth.go` -/

namespace app

/-- Go `(*AuthService).Authenticate`: the `(*user.User, error)` it returns and
the world after it. -/
def Authenticate {σ : Type} (Key : KeyFunc) (repo : RepositoryInterface σ)
    (phoneNumber password : String) (w : World σ) :
    (Option User × Option Error) × World σ :=
  match repo.callGetByPhoneNumber phoneNumber w with
  | ((_, some err), w) => ((none, some err), w)
  | ((none, none), w) => ((none, some (.AuthenticationError "user not found")), w)
  | ((some usr, none), w) =>
    if !usr.VerifyPassword Key password then
      ((none, some (.AuthenticationError "invalid password")), w)
    else ((some usr, none), w)

/-! ## `handler/app/user.go` -/

/-- How a Go call ends: it returns a value, or it panics (here only by
dereferencing a nil `*User`). -/
inductive Outcome (α : Type) where
  | returns (a : α)
  | panics
  deriving DecidableEq, Repr

/-- What `UpdateProfile` leaves behind: how the call ended, the account object
`usr` points to (none for a nil pointer) and the world. -/
structure UpdateResult (σ : Type) where
  outcome : Outcome (Option Error)
  usr : Option User
  world : World σ

/-- The block `if fullName != nil && *fullName != usr.FullName() { ... }` of
`UpdateProfile` for a non-nil `usr`: the account after it, the error when the
block returns one, and `modified`. -/
def UpdateProfile.fullNameBlock (usr : User) (fullName : Option String) :
    User × Option Error × Bool :=
  match fullName with
  | none => (usr, none, false)
  | some fullName =>
    if fullName ≠ usr.fullName then
      match usr.ChangeFullName fullName with
      | (usr, some err) => (usr, some err, false)
      | (usr, none) => (usr, none, true)
    else (usr, none, false)

/-- The block `if phoneNumber != nil && *phoneNumber != usr.PhoneNumber() { ... }`
of `UpdateProfile` for a non-nil `usr`: the account after it, the error when
the block returns one, `modified`, and the world. -/
def UpdateProfile.phoneNumberBlock {σ : Type} (repo : RepositoryInterface σ) (usr : User)
    (phoneNumber : Option String) (modified : Bool) (w : World σ) :
    User × Option Error × Bool × World σ :=
  match phoneNumber with
  | none => (usr, none, modified, w)
  | some phoneNumber =>
    if phoneNumber ≠ usr.phoneNumber then
      match repo.callGetByPhoneNumber phoneNumber w with
      | ((_, some err), w) => (usr, some err, modified, w)
      | ((other, none), w) =>
        -- Ensure the new phone number are not taken yet
        if (match other with
            | some other => decide (other.id ≠ usr.id)
            | none => false) then
          (usr, some .ErrPhoneNumberAlreadyTaken, modified, w)
        else
          match usr.ChangePhoneNumber phoneNumber with
          | (usr, some err) => (usr, some err, modified, w)
          | (usr, none) => (usr, none, true, w)
    else (usr, none, modified, w)

/-- Go `(*UserService).UpdateProfile`.  When `GetByID` returns a nil account and
a nil error, `usr.FullName()` and `usr.PhoneNumber()` dereference nil, so the
call panics as soon as a supplied field makes it evaluate one of them, and
otherwise reaches `if !modified { return nil }`. -/
def UpdateProfile {σ : Type} (repo : RepositoryInterface σ) (id : String)
    (fullName phoneNumber : Option String) (w : World σ) : UpdateResult σ :=
  match repo.callGetByID id w with
  | ((usr, some err), w) => ⟨.returns (some err), usr, w⟩
  | ((none, none), w) =>
    match fullName, phoneNumber with
    | some _, _ => ⟨.panics, none, w⟩
    | none, some _ => ⟨.panics, none, w⟩
    | none, none => ⟨.returns none, none, w⟩
  | ((some usr, none), w) =>
    match UpdateProfile.fullNameBlock usr fullName with
    | (usr, some err, _) => ⟨.returns (some err), some usr, w⟩
    | (usr, none, modified) =>
      match UpdateProfile.phoneNumberBlock repo usr phoneNumber modified w with
      | (usr, some err, _, w) => ⟨.returns (some err), some usr, w⟩
      | (usr, none, modified, w) =>
        if !modified then ⟨.returns none, some usr, w⟩
        else ⟨.returns (repo.callUpdate usr w).1, some usr, (repo.callUpdate usr w).2⟩

end app

/-! ## `handler/token.go` -/

namespace handler

/-- Go `time.Duration`: a number of nanoseconds. -/
abbrev Duration := Int

/-- Go `time.Hour`. -/
def Hour : Duration := 3600 * 1000000000

/-- An instant as nanoseconds since the Unix epoch. -/
abbrev Time := Int

/-- Go `Time.Unix`: whole seconds since the epoch. -/
def Time.Unix (t : Time) : Int := t / 1000000000

/-- Go `Time.Add`. -/
def Time.Add (t : Time) (d : Duration) : Time := t + d

/-- The fields of `jwt.StandardClaims` that the program sets. -/
structure StandardClaims where
  Subject : String
  IssuedAt : Int
  ExpiresAt : Int
  deriving DecidableEq, Repr

/-- Go `TokenCreator`; `SignedString` stands for
`jwt.NewWithClaims(jwt.SigningMethodRS256, claims).SignedString(tc.PrivateKey)`,
the library signing the claims with the configured key. -/
structure TokenCreator where
  SignedString : StandardClaims → String × Option Error
  Expiry : Duration

def TokenCreator.expiry (tc : TokenCreator) : Duration :=
  if tc.Expiry ≤ 0 then 1 * Hour else tc.Expiry

/-- The claim set `CreateAccessToken` builds for `usr` at the instant `now`. -/
def TokenCreator.claims (tc : TokenCreator) (now : Time) (usr : User) : StandardClaims :=
  { Subject := usr.id
    IssuedAt := Time.Unix now
    ExpiresAt := Time.Unix (Time.Add now tc.expiry) }

/-- Go `(*TokenCreator).CreateAccessToken`, with `now` the value of
`time.Now()`. -/
def TokenCreator.CreateAccessToken {σ : Type} (tc : TokenCreator) (now : Time) (usr : User)
    (w : World σ) : (String × Option Error) × World σ :=
  (tc.SignedString (tc.claims now usr),
    { w with calls := w.calls ++
        [.SignedString (tc.claims now usr).Subject (tc.claims now usr).IssuedAt
          (tc.claims now usr).ExpiresAt] })

/-! ## `handler/endpoints.go` -/

/-- Go `generated.UserCredentials`. -/
structure UserCredentials where
  PhoneNumber : String
  Password : String
  deriving DecidableEq, Repr

/-- Bodies the handlers write. -/
inductive Body where
  | LoginResponse (Id AccessToken : String)
  deriving DecidableEq, Repr

/-- What a handler does with the request: `NoContent code` and `JSON code body`
are the responses written through the echo context (the handler then returns
nil), `Err err` is a non-nil error returned without writing a response, and
`Panic` a nil dereference. -/
inductive Response where
  | NoContent (code : Nat)
  | JSON (code : Nat) (body : Body)
  | Err (err : Error)
  | Panic
  deriving DecidableEq, Repr

def StatusOK : Nat := 200
def StatusBadRequest : Nat := 400

/-- Go `errors.As(err, &authErr)` for `authErr` of type `AuthenticationError`. -/
def asAuthenticationError : Option Error → Bool
  | some (.AuthenticationError _) => true
  | _ => false

/-- Go `(*Server).Login`.  `bind` is the outcome of `ctx.Bind(&cred)`, `sign`
the signer behind the package's private key and `now` the clock reading of
`CreateAccessToken`; the token creator is built with `Expiry` unset.  The
`log.Printf` line only writes to the process log and is left out. -/
def Login {σ : Type} (Key : KeyFunc) (repo : RepositoryInterface σ)
    (sign : StandardClaims → String × Option Error) (now : Time)
    (bind : Except Error UserCredentials) (w : World σ) : Response × World σ :=
  match bind with
  | .error err => (.Err err, w)
  | .ok cred =>
    match app.Authenticate Key repo cred.PhoneNumber cred.Password w with
    | ((usr, err), w) =>
      if asAuthenticationError err then (.NoContent StatusBadRequest, w)
      else
        match err with
        | some err => (.Err err, w)
        | none =>
          match usr with
          | none => (.Panic, w)
          | some usr =>
            let tc : TokenCreator := { SignedString := sign, Expiry := 0 }
            match tc.CreateAccessToken now usr w with
            | ((_, some err), w) => (.Err err, w)
            | ((tokenString, none), w) =>
              (.JSON StatusOK (.LoginResponse usr.id tokenString), w)

/-- Go `TokenVerifier`; `ParseWithClaims` stands for
`jwt.ParseWithClaims(tokenString, &claim, keyFunc)` with the key function that
returns `tv.PublicKey`: the library's error, or the parsed claims with the
token's `Valid` flag. -/
structure TokenVerifier where
  ParseWithClaims : String → Except Error (StandardClaims × Bool)

/-- Go `(*TokenVerifier).VerifyIdentify`. -/
def TokenVerifier.VerifyIdentify (tv : TokenVerifier) (tokenString : String) :
    String × Option Error :=
  match tv.ParseWithClaims tokenString with
  | .error err => ("", some err)
  | .ok (claim, valid) =>
    if !valid then ("", some (.new "invalid token"))
    else (claim.Subject, none)

/-- Go `generated.UserRegistrationForm`. -/
structure UserRegistrationForm where
  PhoneNumber : String
  FullName : String
  Password : String
  deriving DecidableEq, Repr

/-- Go `generated.FieldError`. -/
structure FieldError where
  Name : String
  Codes : List String
  deriving DecidableEq, Repr

def errCodePhoneNumberLength : String := "PHONE_NUMBER_LENGTH"
def errCodePhoneNumberFormat : String := "PHONE_NUMBER_FORMAT"
def errCodeFullNameLength : String := "FULL_NAME_LENGTH"
def errCodePasswordStrength : String := "PASSWORD_STRENGTH"

/-- A Go `map[string][]string` as its entries, one per key. -/
abbrev Failures := List (String × List String)

/-- Go `failures[key]`: the stored slice, nil when the key is absent. -/
def Failures.get (failures : Failures) (key : String) : List String :=
  (failures.lookup key).getD []

/-- Go `failures[key] = codes`: replaces the entry of `key` or adds one. -/
def Failures.set (failures : Failures) (key : String) (codes : List String) : Failures :=
  if failures.any fun e => e.1 = key then
    failures.map fun e => if e.1 = key then (key, codes) else e
  else failures ++ [(key, codes)]

/-- The map `failures` of `validateRegistrationForm` when its four checks are
done. -/
def registrationFailures (form : UserRegistrationForm) : Failures :=
  let failures : Failures := []
  let failures :=
    if !ValidPhoneNumberLength form.PhoneNumber then
      failures.set "phoneNumber" (failures.get "phoneNumber" ++ [errCodePhoneNumberLength])
    else failures
  let failures :=
    if !ValidPhoneNumberPrefix form.PhoneNumber then
      failures.set "phoneNumber" (failures.get "phoneNumber" ++ [errCodePhoneNumberFormat])
    else failures
  let failures :=
    if !ValidFullNameLength form.FullName then
      failures.set "fullName" (failures.get "fullName" ++ [errCodeFullNameLength])
    else failures
  let failures :=
    if !ValidPasswordStrength form.Password then
      failures.set "password" (failures.get "password" ++ [errCodePasswordStrength])
    else failures
  failures

/-- Go `validateRegistrationForm`.  The order in which `range` visits a map is
not specified; `rangeOrder` is the order the run takes, some rearrangement of
the entries. -/
def validateRegistrationForm (rangeOrder : Failures → Failures)
    (form : UserRegistrationForm) : List FieldError :=
  (rangeOrder (registrationFailures form)).map fun e => { Name := e.1, Codes := e.2 }

end handler

/-! ## Sample collaborators for concrete evaluations -/

/-- A stand-in repository: the stored accounts in a list. -/
def listRepo : RepositoryInterface (List User) where
  Store u db := (none, db ++ [u])
  GetByID id db := ((db.find? fun u => u.id = id, none), db)
  GetByPhoneNumber phoneNumber db := ((db.find? fun u => u.phoneNumber = phoneNumber, none), db)
  Update u db :=
    if db.any fun v => v.id = u.id then (none, db.map fun v => if v.id = u.id then u else v)
    else (some (.new "no rows affected"), db)

/-- The account of the tests, `NewWithPassword("jdoe", "+628174546647",
"John Doe", "Secret123!")`, under the sample key function and a salt of
sixteen bytes 7. -/
def johnDoe : User :=
  ⟨"jdoe", "+628174546647", "John Doe",
    hashPassword sampleKey "Secret123!" (List.replicate 16 7), List.replicate 16 7⟩

/-- A second account, with another id and phone number. -/
def janeRoe : User :=
  ⟨"jroe", "+628174546648", "Jane Roe",
    hashPassword sampleKey "Passw0rd#" (List.replicate 16 9), List.replicate 16 9⟩

/-- A stand-in signer: the token is the subject. -/
def sampleSign : handler.StandardClaims → String × Option Error :=
  fun claims => (claims.Subject, none)

/-- A stand-in repository for the race of two writers on one phone number:
as `listRepo`, but right after a lookup by phone number a concurrent writer
stores an account under the number looked up, and `Update` enforces the
uniqueness of phone numbers as the SQL repository does. -/
def racingRepo : RepositoryInterface (List User) where
  Store := listRepo.Store
  GetByID := listRepo.GetByID
  GetByPhoneNumber phoneNumber db :=
    ((db.find? fun u => u.phoneNumber = phoneNumber, none),
      db ++ [{ janeRoe with phoneNumber := phoneNumber }])
  Update u db :=
    if db.any fun v => v.id ≠ u.id ∧ v.phoneNumber = u.phoneNumber then
      (some .ErrUniqueViolation, db)
    else listRepo.Update u db

/-- A password of 34 characters and 65 bytes: "A1!" and 31 times "é". -/
def accentedPassword : String := ⟨'A' :: '1' :: '!' :: List.replicate 31 'é'⟩

/-! ## Predicates used to state the properties -/

namespace user

/-- A string begins with the national prefix "+62". -/
def BeginsWith62 (s : String) : Prop := "+62".data <+: s.data

/-- A code point is an uppercase ASCII letter. -/
def IsUpper (c : Char) : Prop := 'A' ≤ c ∧ c ≤ 'Z'

/-- A code point is a lowercase ASCII letter. -/
def IsLower (c : Char) : Prop := 'a' ≤ c ∧ c ≤ 'z'

/-- A code point is an ASCII digit. -/
def IsDigit (c : Char) : Prop := '0' ≤ c ∧ c ≤ '9'

instance (s : String) : Decidable (BeginsWith62 s) := by
  unfold BeginsWith62; infer_instance

instance (c : Char) : Decidable (IsUpper c) := by
  unfold IsUpper; infer_instance

instance (c : Char) : Decidable (IsLower c) := by
  unfold IsLower; infer_instance

instance (c : Char) : Decidable (IsDigit c) := by
  unfold IsDigit; infer_instance

/-- The invariant of the account aggregate stated in the data model. -/
def User.Invariant (u : User) : Prop :=
  (10 ≤ len u.phoneNumber ∧ len u.phoneNumber ≤ 13) ∧ BeginsWith62 u.phoneNumber ∧
  (3 ≤ len u.fullName ∧ len u.fullName ≤ 60) ∧
  u.passwordHash ≠ [] ∧ u.passwordSalt ≠ []

/-- The account `A` with the supplied full name and phone number in place of
its own, where one is supplied. -/
def User.withProfile (A : User) (fullName phoneNumber : Option String) : User :=
  ⟨A.id, phoneNumber.getD A.phoneNumber, fullName.getD A.fullName, A.passwordHash,
    A.passwordSalt⟩

/-- What the error list `r` of a registration form has to be, given the
verdicts of the four validators: empty exactly when all accept; for each
validator that rejects an entry of its field with its code; one entry a field
at most; and no code of a validator that accepts. -/
def RegistrationErrors (lengthOk formatOk nameOk passwordOk : Bool)
    (r : List handler.FieldError) : Prop :=
  (r = [] ↔ lengthOk = true ∧ formatOk = true ∧ nameOk = true ∧ passwordOk = true) ∧
  (lengthOk = false → ∃ e ∈ r, e.Name = "phoneNumber" ∧ "PHONE_NUMBER_LENGTH" ∈ e.Codes) ∧
  (formatOk = false → ∃ e ∈ r, e.Name = "phoneNumber" ∧ "PHONE_NUMBER_FORMAT" ∈ e.Codes) ∧
  (nameOk = false → ∃ e ∈ r, e.Name = "fullName" ∧ "FULL_NAME_LENGTH" ∈ e.Codes) ∧
  (passwordOk = false → ∃ e ∈ r, e.Name = "password" ∧ "PASSWORD_STRENGTH" ∈ e.Codes) ∧
  (r.map fun e => e.Name).Nodup ∧
  (∀ e ∈ r, ∀ c ∈ e.Codes,
    (e.Name = "phoneNumber" ∧ c = "PHONE_NUMBER_LENGTH" ∧ lengthOk = false) ∨
    (e.Name = "phoneNumber" ∧ c = "PHONE_NUMBER_FORMAT" ∧ formatOk = false) ∨
    (e.Name = "fullName" ∧ c = "FULL_NAME_LENGTH" ∧ nameOk = false) ∨
    (e.Name = "password" ∧ c = "PASSWORD_STRENGTH" ∧ passwordOk = false))

/-- The error list in the order in which the checks add their fields. -/
def registrationErrorsInOrder (lengthOk formatOk nameOk passwordOk : Bool) :
    List handler.FieldError :=
  (if lengthOk && formatOk then []
    else [⟨"phoneNumber", (if lengthOk then [] else ["PHONE_NUMBER_LENGTH"]) ++
      (if formatOk then [] else ["PHONE_NUMBER_FORMAT"])⟩]) ++
  (if nameOk then [] else [⟨"fullName", ["FULL_NAME_LENGTH"]⟩]) ++
  (if passwordOk then [] else [⟨"password", ["PASSWORD_STRENGTH"]⟩])

/-- The ASCII character with code `64 + j`. -/
def tailChar (j : Fin 32) : Char := Char.ofNat (64 + j.val)

/-- The password "A1!" followed by the 61 characters that `x` selects. -/
def longPassword (x : Fin 61 → Fin 32) : String :=
  ⟨'A' :: '1' :: '!' :: List.ofFn fun i => tailChar (x i)⟩

/-- The first 32 bytes of a derived key, by index. -/
def keyDigits (l : List Byte) : Fin 32 → Byte := fun i => l.getD i.val 0

end user

/-! ## Lemmas on the validators -/

namespace user

theorem ValidPhoneNumberLength_iff (s : String) :
    ValidPhoneNumberLength s = true ↔ 10 ≤ len s ∧ len s ≤ 13 := by
  simp [ValidPhoneNumberLength]

theorem ValidPhoneNumberPrefix_iff (s : String) :
    ValidPhoneNumberPrefix s = true ↔ BeginsWith62 s := by
  simp [ValidPhoneNumberPrefix, HasPrefix, BeginsWith62]

theorem ValidFullNameLength_iff (s : String) :
    ValidFullNameLength s = true ↔ 3 ≤ len s ∧ len s ≤ 60 := by
  simp [ValidFullNameLength]

theorem containsUppercaseLoop_iff (cs : List Char) :
    containsUppercaseLoop cs = true ↔ ∃ c ∈ cs, IsUpper c := by
  induction cs with
  | nil => simp [containsUppercaseLoop]
  | cons c cs ih =>
    by_cases h : 'A' ≤ c ∧ c ≤ 'Z'
    · simp [containsUppercaseLoop, h, IsUpper]
    · simp only [containsUppercaseLoop, h, if_false, ih, List.mem_cons, exists_eq_or_imp, IsUpper,
        false_or]

theorem containsNumberLoop_iff (cs : List Char) :
    containsNumberLoop cs = true ↔ ∃ c ∈ cs, IsDigit c := by
  induction cs with
  | nil => simp [containsNumberLoop]
  | cons c cs ih =>
    by_cases h : '0' ≤ c ∧ c ≤ '9'
    · simp [containsNumberLoop, h, IsDigit]
    · simp only [containsNumberLoop, h, if_false, ih, List.mem_cons, exists_eq_or_imp, IsDigit,
        false_or]

theorem containsSpecialCharacterLoop_iff (cs : List Char) :
    containsSpecialCharacterLoop cs = true ↔
      ∃ c ∈ cs, ¬ IsDigit c ∧ ¬ IsUpper c ∧ ¬ IsLower c := by
  induction cs with
  | nil => simp [containsSpecialCharacterLoop]
  | cons c cs ih =>
    by_cases h : ¬ ('0' ≤ c ∧ c ≤ '9') ∧ ¬ ('A' ≤ c ∧ c ≤ 'Z') ∧ ¬ ('a' ≤ c ∧ c ≤ 'z')
    · have hc : ∃ d ∈ c :: cs, ¬ IsDigit d ∧ ¬ IsUpper d ∧ ¬ IsLower d :=
        ⟨c, List.mem_cons_self c cs, h⟩
      simpa [containsSpecialCharacterLoop, h] using hc
    · simp only [containsSpecialCharacterLoop, h, if_false, ih, List.mem_cons, exists_eq_or_imp,
        IsDigit, IsUpper, IsLower, false_or]

theorem ValidPasswordStrength_iff (p : String) :
    ValidPasswordStrength p = true ↔
      (6 ≤ len p ∧ len p ≤ 64) ∧ (∃ c ∈ p.data, IsUpper c) ∧ (∃ c ∈ p.data, IsDigit c) ∧
        (∃ c ∈ p.data, ¬ IsDigit c ∧ ¬ IsUpper c ∧ ¬ IsLower c) := by
  rw [← containsUppercaseLoop_iff, ← containsNumberLoop_iff, ← containsSpecialCharacterLoop_iff]
  unfold ValidPasswordStrength containsUppercase containsNumber containsSpecialCharacter
  by_cases h1 : len p < 6 ∨ len p > 64
  · have : ¬ (6 ≤ len p ∧ len p ≤ 64) := by omega
    simp [h1, this]
  · have : 6 ≤ len p ∧ len p ≤ 64 := by omega
    simp only [h1, if_false, this, true_and]
    cases containsUppercaseLoop p.data <;> cases containsNumberLoop p.data <;>
      cases containsSpecialCharacterLoop p.data <;> simp

theorem New_eq_ok_iff (id phoneNumber fullName : String) (hash salt : List Byte) (u : User) :
    New id phoneNumber fullName hash salt = .ok u ↔
      (id ≠ "" ∧ ValidPhoneNumberLength phoneNumber = true ∧
        ValidPhoneNumberPrefix phoneNumber = true ∧ ValidFullNameLength fullName = true ∧
        hash ≠ [] ∧ salt ≠ []) ∧ u = ⟨id, phoneNumber, fullName, hash, salt⟩ := by
  unfold New
  by_cases h1 : id = "" <;> by_cases h2 : ValidPhoneNumberLength phoneNumber = true <;>
    by_cases h3 : ValidPhoneNumberPrefix phoneNumber = true <;>
    by_cases h4 : ValidFullNameLength fullName = true <;>
    by_cases h5 : hash = [] <;> by_cases h6 : salt = [] <;>
    simp [h1, h2, h3, h4, h5, h6, List.length_eq_zero]
  exact eq_comm

theorem New_invariant {id phoneNumber fullName : String} {hash salt : List Byte} {u : User}
    (h : New id phoneNumber fullName hash salt = .ok u) : u.Invariant := by
  obtain ⟨⟨-, h2, h3, h4, h5, h6⟩, rfl⟩ := (New_eq_ok_iff _ _ _ _ _ _).1 h
  exact ⟨(ValidPhoneNumberLength_iff _).1 h2, (ValidPhoneNumberPrefix_iff _).1 h3,
    (ValidFullNameLength_iff _).1 h4, h5, h6⟩

theorem NewWithPassword_eq_ok {Key : KeyFunc} {rand : RandRead}
    {id phoneNumber fullName password : String} {u : User}
    (h : NewWithPassword Key rand id phoneNumber fullName password = .ok u) :
    ValidPasswordStrength password = true ∧ ∃ salt, genSalt rand 16 = .ok salt ∧
      New id phoneNumber fullName (hashPassword Key password salt) salt = .ok u := by
  unfold NewWithPassword at h
  by_cases hp : ValidPasswordStrength password = true
  · refine ⟨hp, ?_⟩
    simp only [hp, Bool.not_true, Bool.false_eq_true, if_false] at h
    cases hs : genSalt rand 16 with
    | error e => simp [hs] at h
    | ok salt => exact ⟨salt, rfl, by simpa [hs] using h⟩
  · simp [hp] at h

theorem mutate_invariant (u : User) (m : Mutation) (h : u.Invariant) : (u.mutate m).Invariant := by
  obtain ⟨h1, h2, h3, h4, h5⟩ := h
  cases m with
  | ChangeFullName s =>
    by_cases hv : ValidFullNameLength s = true
    · simpa [User.mutate, User.ChangeFullName, hv, User.Invariant] using
        ⟨h1, h2, (ValidFullNameLength_iff _).1 hv, h4, h5⟩
    · simpa [User.mutate, User.ChangeFullName, hv, User.Invariant] using ⟨h1, h2, h3, h4, h5⟩
  | ChangePhoneNumber s =>
    by_cases hv : ValidPhoneNumberLength s = true <;>
      by_cases hw : ValidPhoneNumberPrefix s = true
    · simpa [User.mutate, User.ChangePhoneNumber, hv, hw, User.Invariant] using
        ⟨(ValidPhoneNumberLength_iff _).1 hv, (ValidPhoneNumberPrefix_iff _).1 hw, h3, h4, h5⟩
    all_goals
      simpa [User.mutate, User.ChangePhoneNumber, hv, hw, User.Invariant] using
        ⟨h1, h2, h3, h4, h5⟩

theorem mutateAll_invariant (ms : List Mutation) (u : User) (h : u.Invariant) :
    (u.mutateAll ms).Invariant := by
  induction ms generalizing u with
  | nil => exact h
  | cons m ms ih => exact ih _ (mutate_invariant u m h)

end user

/-! ## The account aggregate: construction, verification, mutation -/

namespace user

theorem sampleKey_returnsKeyLen : KeyFunc.ReturnsKeyLen sampleKey := by
  intro password salt iter keyLen
  simp only [sampleKey, List.length_take, List.length_append, List.length_replicate]
  omega

/-- With valid arguments and a random source that succeeds, `NewWithPassword`
returns the account holding the derived key and the salt. -/
theorem NewWithPassword_of_valid (Key : KeyFunc) (hKey : Key.ReturnsKeyLen)
    (fill : Nat → Byte) (id phoneNumber fullName password : String)
    (hid : id ≠ "")
    (hlen : 10 ≤ len phoneNumber ∧ len phoneNumber ≤ 13)
    (hpre : BeginsWith62 phoneNumber)
    (hname : 3 ≤ len fullName ∧ len fullName ≤ 60)
    (hpw : ValidPasswordStrength password = true) :
    NewWithPassword Key (.ok fill) id phoneNumber fullName password =
      .ok ⟨id, phoneNumber, fullName, hashPassword Key password ((List.range 16).map fill),
        (List.range 16).map fill⟩ := by
  have hsalt : (List.range 16).map fill ≠ [] := by
    intro h
    have := congrArg List.length h
    simp at this
  have hhash : hashPassword Key password ((List.range 16).map fill) ≠ [] := by
    intro h
    have h32 := hKey (toBytes password) ((List.range 16).map fill) 10000 32
    have := congrArg List.length h
    simp only [hashPassword] at this
    rw [h32] at this
    simp at this
  simp only [NewWithPassword, hpw, genSalt, Bool.not_true, Bool.false_eq_true, if_false]
  exact (New_eq_ok_iff _ _ _ _ _ _).2
    ⟨⟨hid, (ValidPhoneNumberLength_iff _).2 hlen, (ValidPhoneNumberPrefix_iff _).2 hpre,
      (ValidFullNameLength_iff _).2 hname, hhash, hsalt⟩, rfl⟩

/-- C1: for a non-empty id, a phone number of length 10 to 13 that begins with
"+62", a full name of length 3 to 60 and a password accepted by
`ValidPasswordStrength`, when `rand.Read` succeeds (and `pbkdf2.Key` returns a
key of the requested length) `NewWithPassword` returns an account without
error, and `VerifyPassword` on that account with the same password is true. -/
theorem NewWithPassword_ok_and_VerifyPassword (Key : KeyFunc) (hKey : Key.ReturnsKeyLen)
    (fill : Nat → Byte) (id phoneNumber fullName password : String)
    (hid : id ≠ "")
    (hlen : 10 ≤ len phoneNumber ∧ len phoneNumber ≤ 13)
    (hpre : BeginsWith62 phoneNumber)
    (hname : 3 ≤ len fullName ∧ len fullName ≤ 60)
    (hpw : ValidPasswordStrength password = true) :
    ∃ u, NewWithPassword Key (.ok fill) id phoneNumber fullName password = .ok u ∧
      u.VerifyPassword Key password = true :=
  ⟨_, NewWithPassword_of_valid Key hKey fill id phoneNumber fullName password hid hlen hpre
    hname hpw, by simp [User.VerifyPassword, verifyPassword]⟩

/-- C1 at the account of the login test: "jdoe", "+628174546647", "John Doe",
"Secret123!". -/
theorem NewWithPassword_ok_and_VerifyPassword_witness :
    KeyFunc.ReturnsKeyLen sampleKey ∧ "jdoe" ≠ "" ∧
    (10 ≤ len "+628174546647" ∧ len "+628174546647" ≤ 13) ∧ BeginsWith62 "+628174546647" ∧
    (3 ≤ len "John Doe" ∧ len "John Doe" ≤ 60) ∧ ValidPasswordStrength "Secret123!" = true ∧
    ∃ u, NewWithPassword sampleKey (.ok fun _ => 7) "jdoe" "+628174546647" "John Doe"
        "Secret123!" = .ok u ∧ u.VerifyPassword sampleKey "Secret123!" = true :=
  ⟨sampleKey_returnsKeyLen, by decide, by decide, (ValidPhoneNumberPrefix_iff _).1 (by decide),
    by decide, by decide,
    NewWithPassword_ok_and_VerifyPassword sampleKey sampleKey_returnsKeyLen (fun _ => 7)
      "jdoe" "+628174546647" "John Doe" "Secret123!" (by decide) (by decide)
      ((ValidPhoneNumberPrefix_iff _).1 (by decide)) (by decide) (by decide)⟩

end user

/-! ## Distinct passwords with one derived key -/

namespace user

theorem tailChar_injective : Function.Injective tailChar := by
  intro i j h
  have hi : ∀ k : Fin 32, (tailChar k).toNat = 64 + k.val := by decide
  have := congrArg Char.toNat h
  rw [hi, hi] at this
  exact Fin.ext (by omega)

theorem longPassword_injective : Function.Injective longPassword := by
  intro x y h
  have h0 : 'A' :: '1' :: '!' :: (List.ofFn fun i => tailChar (x i)) =
      'A' :: '1' :: '!' :: List.ofFn fun i => tailChar (y i) := congrArg String.data h
  have h1 : (List.ofFn fun i => tailChar (x i)) = List.ofFn fun i => tailChar (y i) :=
    List.tail_eq_of_cons_eq (List.tail_eq_of_cons_eq (List.tail_eq_of_cons_eq h0))
  funext i
  exact tailChar_injective (congrFun (List.ofFn_inj.1 h1) i)

theorem utf8ByteSize_go_eq_length (cs : List Char) (h : ∀ c ∈ cs, c.utf8Size = 1) :
    String.utf8ByteSize.go cs = cs.length := by
  induction cs with
  | nil => rfl
  | cons c cs ih =>
    have hc := h c (List.mem_cons_self c cs)
    have := ih fun d hd => h d (List.mem_cons_of_mem c hd)
    simp only [String.utf8ByteSize.go, List.length_cons, this, hc]

theorem len_longPassword (x : Fin 61 → Fin 32) : len (longPassword x) = 64 := by
  have hk : ∀ k : Fin 32, (tailChar k).utf8Size = 1 := by decide
  have h : ∀ c ∈ (longPassword x).data, c.utf8Size = 1 := by
    intro c hc
    simp only [longPassword, List.mem_cons, List.mem_ofFn] at hc
    rcases hc with rfl | rfl | rfl | ⟨i, rfl⟩
    · decide
    · decide
    · decide
    · exact hk _
  show String.utf8ByteSize.go (longPassword x).data = 64
  rw [utf8ByteSize_go_eq_length _ h]
  simp only [longPassword, List.length_cons, List.length_ofFn]

theorem ValidPasswordStrength_longPassword (x : Fin 61 → Fin 32) :
    ValidPasswordStrength (longPassword x) = true := by
  rw [ValidPasswordStrength_iff, len_longPassword]
  refine ⟨by omega, ⟨'A', ?_, by decide⟩, ⟨'1', ?_, by decide⟩, ⟨'!', ?_, by decide⟩⟩ <;>
    simp only [longPassword, List.mem_cons, true_or, or_true]

theorem keyDigits_injOn {l₁ l₂ : List Byte} (h₁ : l₁.length = 32) (h₂ : l₂.length = 32)
    (h : keyDigits l₁ = keyDigits l₂) : l₁ = l₂ := by
  apply List.ext_getElem (h₁.trans h₂.symm)
  intro n hn₁ hn₂
  have := congrFun h ⟨n, h₁ ▸ hn₁⟩
  simpa [keyDigits, List.getD_eq_getElem, hn₁, hn₂] using this

/-- A key function that returns 32 bytes maps two different acceptable
passwords to one key, whatever the salt. -/
theorem exists_key_collision (Key : KeyFunc) (hKey : Key.ReturnsKeyLen) (salt : List Byte) :
    ∃ p q : String, q ≠ p ∧ ValidPasswordStrength p = true ∧
      hashPassword Key q salt = hashPassword Key p salt := by
  have hcard : Fintype.card (Fin 32 → Byte) < Fintype.card (Fin 61 → Fin 32) := by
    simp only [Fintype.card_fun, Fintype.card_fin]
    norm_num
  obtain ⟨x, y, hxy, hf⟩ := Fintype.exists_ne_map_eq_of_card_lt
    (fun x => keyDigits (hashPassword Key (longPassword x) salt)) hcard
  refine ⟨longPassword y, longPassword x, fun h => hxy (longPassword_injective h),
    ValidPasswordStrength_longPassword y, ?_⟩
  exact keyDigits_injOn (hKey _ _ _ _) (hKey _ _ _ _) hf

end user

/-! ## Password verification against other plaintexts -/

namespace user

/-- The stored hash of an account made by `NewWithPassword` is the key derived
from its password and its salt. -/
theorem NewWithPassword_passwordHash {Key : KeyFunc} {rand : RandRead}
    {id phoneNumber fullName p : String} {u : User}
    (h : NewWithPassword Key rand id phoneNumber fullName p = .ok u) :
    u.passwordHash = hashPassword Key p u.passwordSalt := by
  obtain ⟨-, salt, -, hnew⟩ := NewWithPassword_eq_ok h
  obtain ⟨-, rfl⟩ := (New_eq_ok_iff _ _ _ _ _ _).1 hnew
  rfl

/-- C2 (as stated, refuted): no key function that returns 32-byte keys makes
`VerifyPassword` reject every plaintext other than the password of the
account; two acceptable passwords share a derived key. -/
theorem VerifyPassword_rejects_all_others_false :
    ¬ ∃ Key : KeyFunc, Key.ReturnsKeyLen ∧
      ∀ (rand : RandRead) (id phoneNumber fullName p q : String) (u : User),
        NewWithPassword Key rand id phoneNumber fullName p = .ok u → q ≠ p →
          u.VerifyPassword Key q = false := by
  rintro ⟨Key, hKey, hall⟩
  obtain ⟨p, q, hqp, hp, hcol⟩ :=
    exists_key_collision Key hKey ((List.range 16).map fun _ => 0)
  have hnew := NewWithPassword_of_valid Key hKey (fun _ => 0) "jdoe" "+628174546647"
    "John Doe" p (by decide) (by decide) (by decide) (by decide) hp
  have hfalse := hall _ _ _ _ _ q _ hnew hqp
  rw [User.VerifyPassword, verifyPassword] at hfalse
  exact of_decide_eq_false hfalse hcol

/-- C2 (amended): on an account made by `NewWithPassword` with password `p`,
`VerifyPassword q` is false exactly when the key derived from `q` and the
account's salt differs from the key derived from `p`, which is the stored
hash. -/
theorem VerifyPassword_eq_false_iff (Key : KeyFunc) (rand : RandRead)
    (id phoneNumber fullName p q : String) (u : User)
    (h : NewWithPassword Key rand id phoneNumber fullName p = .ok u) :
    u.VerifyPassword Key q = false ↔
      hashPassword Key q u.passwordSalt ≠ hashPassword Key p u.passwordSalt := by
  simp [User.VerifyPassword, verifyPassword, NewWithPassword_passwordHash h]

/-- C2 (amended) at the login test: the account of "Secret123!" and the
plaintext "Secret123!x", which is rejected. -/
theorem VerifyPassword_eq_false_iff_witness :
    NewWithPassword sampleKey (.ok fun _ => 7) "jdoe" "+628174546647" "John Doe" "Secret123!" =
      .ok ⟨"jdoe", "+628174546647", "John Doe",
        hashPassword sampleKey "Secret123!" (List.replicate 16 7), List.replicate 16 7⟩ ∧
    (User.VerifyPassword sampleKey ⟨"jdoe", "+628174546647", "John Doe",
        hashPassword sampleKey "Secret123!" (List.replicate 16 7), List.replicate 16 7⟩
        "Secret123!x" = false ↔
      hashPassword sampleKey "Secret123!x" (List.replicate 16 7) ≠
        hashPassword sampleKey "Secret123!" (List.replicate 16 7)) ∧
    hashPassword sampleKey "Secret123!x" (List.replicate 16 7) ≠
      hashPassword sampleKey "Secret123!" (List.replicate 16 7) :=
  ⟨rfl,
    VerifyPassword_eq_false_iff sampleKey (.ok fun _ => 7) "jdoe" "+628174546647" "John Doe"
      "Secret123!" "Secret123!x" _ rfl,
    by decide⟩

end user

/-! ## Password strength, construction checks and mutation frames -/

namespace user

/-- C3: `ValidPasswordStrength p` is true if and only if the byte length of
`p` is at least 6 and at most 64, `p` contains an uppercase ASCII letter, `p`
contains a digit, and `p` contains a character that is neither a letter
(a-z, A-Z) nor a digit. -/
theorem ValidPasswordStrength_true_iff (p : String) :
    ValidPasswordStrength p = true ↔
      (6 ≤ len p ∧ len p ≤ 64) ∧
      (∃ c ∈ p.data, 'A' ≤ c ∧ c ≤ 'Z') ∧
      (∃ c ∈ p.data, '0' ≤ c ∧ c ≤ '9') ∧
      (∃ c ∈ p.data, ¬ ('a' ≤ c ∧ c ≤ 'z') ∧ ¬ ('A' ≤ c ∧ c ≤ 'Z') ∧ ¬ ('0' ≤ c ∧ c ≤ '9')) := by
  rw [ValidPasswordStrength_iff]
  simp only [IsUpper, IsDigit, IsLower]
  constructor
  · rintro ⟨h1, h2, h3, c, hc, hd, hu, hl⟩
    exact ⟨h1, h2, h3, c, hc, hl, hu, hd⟩
  · rintro ⟨h1, h2, h3, c, hc, hl, hu, hd⟩
    exact ⟨h1, h2, h3, c, hc, hd, hu, hl⟩

/-- C4: an account returned without error by `New` or `NewWithPassword`, and
every account reached from it by a finite sequence of `ChangeFullName` and
`ChangePhoneNumber` calls, failed ones included, has a phone number of length
10 to 13 that begins with "+62", a full name of length 3 to 60, a non-empty
password hash and a non-empty password salt. -/
theorem Invariant_mutateAll_of_New (Key : KeyFunc) (rand : RandRead)
    (id phoneNumber fullName password : String) (hash salt : List Byte) (u : User)
    (ms : List Mutation)
    (h : New id phoneNumber fullName hash salt = .ok u ∨
      NewWithPassword Key rand id phoneNumber fullName password = .ok u) :
    (10 ≤ len (u.mutateAll ms).phoneNumber ∧ len (u.mutateAll ms).phoneNumber ≤ 13) ∧
    "+62".data <+: (u.mutateAll ms).phoneNumber.data ∧
    (3 ≤ len (u.mutateAll ms).fullName ∧ len (u.mutateAll ms).fullName ≤ 60) ∧
    (u.mutateAll ms).passwordHash ≠ [] ∧ (u.mutateAll ms).passwordSalt ≠ [] := by
  have hu : u.Invariant := by
    rcases h with h | h
    · exact New_invariant h
    · obtain ⟨-, salt, -, hnew⟩ := NewWithPassword_eq_ok h
      exact New_invariant hnew
  exact mutateAll_invariant ms u hu

/-- C4 at an account built by `New` and three mutation calls, the first of
which fails. -/
theorem Invariant_mutateAll_of_New_witness :
    New "jdoe" "+628174546647" "John Doe" [1] [2] =
      .ok ⟨"jdoe", "+628174546647", "John Doe", [1], [2]⟩ ∧
    User.mutateAll ⟨"jdoe", "+628174546647", "John Doe", [1], [2]⟩
        [.ChangeFullName "Jo", .ChangePhoneNumber "+628174546648", .ChangeFullName "Jane Doe"] =
      ⟨"jdoe", "+628174546648", "Jane Doe", [1], [2]⟩ ∧
    (10 ≤ len "+628174546648" ∧ len "+628174546648" ≤ 13) ∧
    "+62".data <+: "+628174546648".data ∧
    (3 ≤ len "Jane Doe" ∧ len "Jane Doe" ≤ 60) ∧
    ([1] : List Byte) ≠ [] ∧ ([2] : List Byte) ≠ [] :=
  ⟨rfl, by decide,
    Invariant_mutateAll_of_New sampleKey (.ok fun _ => 7) "jdoe" "+628174546647" "John Doe" ""
      [1] [2] ⟨"jdoe", "+628174546647", "John Doe", [1], [2]⟩
      [.ChangeFullName "Jo", .ChangePhoneNumber "+628174546648", .ChangeFullName "Jane Doe"]
      (Or.inl rfl)⟩

/-- C5: `New` fails exactly when a check is violated, with the error of the
first violated check in the order empty id, phone number length outside
[10,13], phone number not beginning with "+62", full name length outside
[3,60], empty password hash, empty password salt; with no check violated it
returns the account holding exactly the five given values. -/
theorem New_first_violated_check (id phoneNumber fullName : String) (hash salt : List Byte) :
    (id = "" → New id phoneNumber fullName hash salt = .error (.new "empty id")) ∧
    (id ≠ "" → ¬ (10 ≤ len phoneNumber ∧ len phoneNumber ≤ 13) →
      New id phoneNumber fullName hash salt = .error (.new "invalid phone number length")) ∧
    (id ≠ "" → (10 ≤ len phoneNumber ∧ len phoneNumber ≤ 13) →
      ¬ "+62".data <+: phoneNumber.data →
      New id phoneNumber fullName hash salt = .error (.new "invalid phone number prefix")) ∧
    (id ≠ "" → (10 ≤ len phoneNumber ∧ len phoneNumber ≤ 13) →
      "+62".data <+: phoneNumber.data → ¬ (3 ≤ len fullName ∧ len fullName ≤ 60) →
      New id phoneNumber fullName hash salt = .error (.new "invalid full name length")) ∧
    (id ≠ "" → (10 ≤ len phoneNumber ∧ len phoneNumber ≤ 13) →
      "+62".data <+: phoneNumber.data → (3 ≤ len fullName ∧ len fullName ≤ 60) →
      hash = [] →
      New id phoneNumber fullName hash salt = .error (.new "empty password hash")) ∧
    (id ≠ "" → (10 ≤ len phoneNumber ∧ len phoneNumber ≤ 13) →
      "+62".data <+: phoneNumber.data → (3 ≤ len fullName ∧ len fullName ≤ 60) →
      hash ≠ [] → salt = [] →
      New id phoneNumber fullName hash salt = .error (.new "empty password salt")) ∧
    (id ≠ "" → (10 ≤ len phoneNumber ∧ len phoneNumber ≤ 13) →
      "+62".data <+: phoneNumber.data → (3 ≤ len fullName ∧ len fullName ≤ 60) →
      hash ≠ [] → salt ≠ [] →
      New id phoneNumber fullName hash salt =
        .ok ⟨id, phoneNumber, fullName, hash, salt⟩) ∧
    ((∃ err, New id phoneNumber fullName hash salt = .error err) ↔
      (id = "" ∨ ¬ (10 ≤ len phoneNumber ∧ len phoneNumber ≤ 13) ∨
        ¬ "+62".data <+: phoneNumber.data ∨ ¬ (3 ≤ len fullName ∧ len fullName ≤ 60) ∨
        hash = [] ∨ salt = [])) := by
  have e1 := ValidPhoneNumberLength_iff phoneNumber
  have e2 : ValidPhoneNumberPrefix phoneNumber = true ↔ "+62".data <+: phoneNumber.data :=
    ValidPhoneNumberPrefix_iff phoneNumber
  have e3 := ValidFullNameLength_iff fullName
  have e4 : hash.length = 0 ↔ hash = [] := List.length_eq_zero
  have e5 : salt.length = 0 ↔ salt = [] := List.length_eq_zero
  unfold New
  by_cases h1 : id = "" <;> by_cases h2 : ValidPhoneNumberLength phoneNumber = true <;>
    by_cases h3 : ValidPhoneNumberPrefix phoneNumber = true <;>
    by_cases h4 : ValidFullNameLength fullName = true <;>
    by_cases h5 : hash = [] <;> by_cases h6 : salt = [] <;>
    simp [h1, h2, h3, h4, h5, h6, ← e1, ← e2, ← e3]

/-- C6: `ChangeFullName s` returns an error and leaves every field unchanged
when the length of `s` is outside [3,60], and otherwise sets the full name to
`s` and nothing else; `ChangePhoneNumber s` returns an error and leaves every
field unchanged when the length of `s` is outside [10,13] or `s` does not begin
with "+62", and otherwise sets the phone number to `s` and nothing else. -/
theorem Change_frame (u : User) (s : String) :
    (¬ (3 ≤ len s ∧ len s ≤ 60) →
      (∃ err, (u.ChangeFullName s).2 = some err) ∧ (u.ChangeFullName s).1 = u) ∧
    ((3 ≤ len s ∧ len s ≤ 60) →
      u.ChangeFullName s =
        (⟨u.id, u.phoneNumber, s, u.passwordHash, u.passwordSalt⟩, none)) ∧
    (¬ (10 ≤ len s ∧ len s ≤ 13) ∨ ¬ "+62".data <+: s.data →
      (∃ err, (u.ChangePhoneNumber s).2 = some err) ∧ (u.ChangePhoneNumber s).1 = u) ∧
    ((10 ≤ len s ∧ len s ≤ 13) ∧ "+62".data <+: s.data →
      u.ChangePhoneNumber s =
        (⟨u.id, s, u.fullName, u.passwordHash, u.passwordSalt⟩, none)) := by
  have e1 := ValidPhoneNumberLength_iff s
  have e2 : ValidPhoneNumberPrefix s = true ↔ "+62".data <+: s.data :=
    ValidPhoneNumberPrefix_iff s
  have e3 := ValidFullNameLength_iff s
  unfold User.ChangeFullName User.ChangePhoneNumber
  by_cases h1 : ValidPhoneNumberLength s = true <;>
    by_cases h2 : ValidPhoneNumberPrefix s = true <;>
    by_cases h3 : ValidFullNameLength s = true <;>
    simp [h1, h2, h3, ← e1, ← e2, ← e3]

end user

/-! ## Authentication and login -/

namespace app

/-- C7: `Authenticate` returns the repository's error when `GetByPhoneNumber`
fails; `AuthenticationError("user not found")` when the repository reports no
account; `AuthenticationError("invalid password")` when an account is found and
its `VerifyPassword` is false; and exactly the account the repository returned,
with no error, when `VerifyPassword` is true. -/
theorem Authenticate_cases {σ : Type} (Key : KeyFunc) (repo : RepositoryInterface σ)
    (phoneNumber password : String) (w : World σ) :
    (∀ usr err, (repo.GetByPhoneNumber phoneNumber w.db).1 = (usr, some err) →
      (Authenticate Key repo phoneNumber password w).1 = (none, some err)) ∧
    ((repo.GetByPhoneNumber phoneNumber w.db).1 = (none, none) →
      (Authenticate Key repo phoneNumber password w).1 =
        (none, some (.AuthenticationError "user not found"))) ∧
    (∀ usr, (repo.GetByPhoneNumber phoneNumber w.db).1 = (some usr, none) →
      usr.VerifyPassword Key password = false →
      (Authenticate Key repo phoneNumber password w).1 =
        (none, some (.AuthenticationError "invalid password"))) ∧
    (∀ usr, (repo.GetByPhoneNumber phoneNumber w.db).1 = (some usr, none) →
      usr.VerifyPassword Key password = true →
      (Authenticate Key repo phoneNumber password w).1 = (some usr, none)) := by
  refine ⟨?_, ?_, ?_, ?_⟩
  · intro usr err h
    simp [Authenticate, RepositoryInterface.callGetByPhoneNumber, h]
  · intro h
    simp [Authenticate, RepositoryInterface.callGetByPhoneNumber, h]
  · intro usr h hv
    simp [Authenticate, RepositoryInterface.callGetByPhoneNumber, h, hv]
  · intro usr h hv
    simp [Authenticate, RepositoryInterface.callGetByPhoneNumber, h, hv]

end app

namespace handler

/-- C8: the response of `Login` for a phone number that is not registered is
the response for a registered phone number with a wrong password: status 400
with no body in both cases, and in neither is a token signed (the only call
made is the lookup by phone number). -/
theorem Login_unregistered_eq_wrong_password {σ : Type} (Key : KeyFunc)
    (repo : RepositoryInterface σ) (sign : StandardClaims → String × Option Error)
    (now : Time) (cred₁ cred₂ : UserCredentials) (w₁ w₂ : World σ) (usr : User)
    (h₁ : (repo.GetByPhoneNumber cred₁.PhoneNumber w₁.db).1 = (none, none))
    (h₂ : (repo.GetByPhoneNumber cred₂.PhoneNumber w₂.db).1 = (some usr, none))
    (hv : usr.VerifyPassword Key cred₂.Password = false) :
    (Login Key repo sign now (.ok cred₁) w₁).1 = .NoContent 400 ∧
    (Login Key repo sign now (.ok cred₂) w₂).1 = .NoContent 400 ∧
    (Login Key repo sign now (.ok cred₁) w₁).1 = (Login Key repo sign now (.ok cred₂) w₂).1 ∧
    (Login Key repo sign now (.ok cred₁) w₁).2.calls =
      w₁.calls ++ [.GetByPhoneNumber cred₁.PhoneNumber] ∧
    (Login Key repo sign now (.ok cred₂) w₂).2.calls =
      w₂.calls ++ [.GetByPhoneNumber cred₂.PhoneNumber] := by
  have e₁ : Login Key repo sign now (.ok cred₁) w₁ =
      (.NoContent 400, ⟨(repo.GetByPhoneNumber cred₁.PhoneNumber w₁.db).2,
        w₁.calls ++ [.GetByPhoneNumber cred₁.PhoneNumber]⟩) := by
    simp [Login, app.Authenticate, RepositoryInterface.callGetByPhoneNumber, h₁,
      asAuthenticationError, StatusBadRequest]
  have e₂ : Login Key repo sign now (.ok cred₂) w₂ =
      (.NoContent 400, ⟨(repo.GetByPhoneNumber cred₂.PhoneNumber w₂.db).2,
        w₂.calls ++ [.GetByPhoneNumber cred₂.PhoneNumber]⟩) := by
    simp [Login, app.Authenticate, RepositoryInterface.callGetByPhoneNumber, h₂, hv,
      asAuthenticationError, StatusBadRequest]
  rw [e₁, e₂]
  exact ⟨rfl, rfl, rfl, rfl, rfl⟩

/-- C8 on the login test: the store holds the account of "+628174546647"; the
first request names "+628174546648", the second the stored number with the
password "Secret123!x". -/
theorem Login_unregistered_eq_wrong_password_witness :
    (listRepo.GetByPhoneNumber "+628174546648" [johnDoe]).1 = (none, none) ∧
    (listRepo.GetByPhoneNumber "+628174546647" [johnDoe]).1 = (some johnDoe, none) ∧
    johnDoe.VerifyPassword sampleKey "Secret123!x" = false ∧
    (Login sampleKey listRepo sampleSign 0 (.ok ⟨"+628174546648", "Secret123!"⟩)
      ⟨[johnDoe], []⟩).1 = .NoContent 400 ∧
    (Login sampleKey listRepo sampleSign 0 (.ok ⟨"+628174546647", "Secret123!x"⟩)
      ⟨[johnDoe], []⟩).1 = .NoContent 400 ∧
    (Login sampleKey listRepo sampleSign 0 (.ok ⟨"+628174546648", "Secret123!"⟩)
      ⟨[johnDoe], []⟩).1 =
    (Login sampleKey listRepo sampleSign 0 (.ok ⟨"+628174546647", "Secret123!x"⟩)
      ⟨[johnDoe], []⟩).1 ∧
    (Login sampleKey listRepo sampleSign 0 (.ok ⟨"+628174546648", "Secret123!"⟩)
      ⟨[johnDoe], []⟩).2.calls = [] ++ [.GetByPhoneNumber "+628174546648"] ∧
    (Login sampleKey listRepo sampleSign 0 (.ok ⟨"+628174546647", "Secret123!x"⟩)
      ⟨[johnDoe], []⟩).2.calls = [] ++ [.GetByPhoneNumber "+628174546647"] :=
  ⟨by decide, by decide, by decide,
    Login_unregistered_eq_wrong_password sampleKey listRepo sampleSign 0
      ⟨"+628174546648", "Secret123!"⟩ ⟨"+628174546647", "Secret123!x"⟩ ⟨[johnDoe], []⟩
      ⟨[johnDoe], []⟩ johnDoe (by decide) (by decide) (by decide)⟩

end handler

/-! ## Profile update -/

namespace app

theorem fullNameBlock_of_unchanged (usr : User) (fullName : Option String)
    (h : ∀ s, fullName = some s → s = usr.fullName) :
    UpdateProfile.fullNameBlock usr fullName = (usr, none, false) := by
  cases fullName with
  | none => rfl
  | some s => simp [UpdateProfile.fullNameBlock, h s rfl]

theorem fullNameBlock_of_valid (usr : User) (s : String) (hne : s ≠ usr.fullName)
    (hv : 3 ≤ len s ∧ len s ≤ 60) :
    UpdateProfile.fullNameBlock usr (some s) = ({ usr with fullName := s }, none, true) := by
  have := (ValidFullNameLength_iff s).2 hv
  simp [UpdateProfile.fullNameBlock, hne, User.ChangeFullName, this]

theorem fullNameBlock_of_invalid (usr : User) (s : String) (hne : s ≠ usr.fullName)
    (hv : ¬ (3 ≤ len s ∧ len s ≤ 60)) :
    UpdateProfile.fullNameBlock usr (some s) =
      (usr, some (.new "invalid full name length"), false) := by
  have : ¬ ValidFullNameLength s = true := fun h => hv ((ValidFullNameLength_iff s).1 h)
  simp [UpdateProfile.fullNameBlock, hne, User.ChangeFullName, this]

theorem phoneNumberBlock_of_taken {σ : Type} (repo : RepositoryInterface σ) (usr other : User)
    (p : String) (modified : Bool) (w : World σ) (hp : p ≠ usr.phoneNumber)
    (hother : (repo.GetByPhoneNumber p w.db).1 = (some other, none))
    (hid : other.id ≠ usr.id) :
    UpdateProfile.phoneNumberBlock repo usr (some p) modified w =
      (usr, some .ErrPhoneNumberAlreadyTaken, modified,
        ⟨(repo.GetByPhoneNumber p w.db).2, w.calls ++ [.GetByPhoneNumber p]⟩) := by
  simp [UpdateProfile.phoneNumberBlock, hp, RepositoryInterface.callGetByPhoneNumber, hother, hid]

/-- C9 (as stated, refuted): the stored account "jdoe" asks for the phone
number of another account together with the new full name "Jo"; the call
returns the full name error, not `ErrPhoneNumberAlreadyTaken`. -/
theorem UpdateProfile_taken_number_short_name :
    (listRepo.GetByID "jdoe" [johnDoe, janeRoe]).1 = (some johnDoe, none) ∧
    "+628174546648" ≠ johnDoe.phoneNumber ∧
    (listRepo.GetByPhoneNumber "+628174546648" [johnDoe, janeRoe]).1 = (some janeRoe, none) ∧
    janeRoe.id ≠ johnDoe.id ∧
    (UpdateProfile listRepo "jdoe" (some "Jo") (some "+628174546648")
      ⟨[johnDoe, janeRoe], []⟩).outcome = .returns (some (.new "invalid full name length")) ∧
    (UpdateProfile listRepo "jdoe" (some "Jo") (some "+628174546648")
      ⟨[johnDoe, janeRoe], []⟩).outcome ≠ .returns (some .ErrPhoneNumberAlreadyTaken) := by
  decide

/-- C9 (amended): for a stored account `A` and a new phone number `p` different
from `A`'s that the repository reports as owned by an account with another id:
when the new full name is absent, equal to `A`'s or of length 3 to 60,
`UpdateProfile` returns `ErrPhoneNumberAlreadyTaken`; when it is supplied,
different and of another length, `UpdateProfile` returns the full name length
error; in both cases neither `Update` nor `Store` is called. -/
theorem UpdateProfile_phone_taken {σ : Type} (repo : RepositoryInterface σ) (id p : String)
    (fullName : Option String) (w : World σ) (A other : User)
    (hA : (repo.GetByID id w.db).1 = (some A, none))
    (hp : p ≠ A.phoneNumber)
    (hother : (repo.GetByPhoneNumber p (repo.GetByID id w.db).2).1 = (some other, none))
    (hid : other.id ≠ A.id) :
    ((∀ s, fullName = some s → s = A.fullName ∨ (3 ≤ len s ∧ len s ≤ 60)) →
      (UpdateProfile repo id fullName (some p) w).outcome =
        .returns (some .ErrPhoneNumberAlreadyTaken) ∧
      (UpdateProfile repo id fullName (some p) w).world.calls =
        w.calls ++ [.GetByID id, .GetByPhoneNumber p]) ∧
    (∀ s, fullName = some s → s ≠ A.fullName → ¬ (3 ≤ len s ∧ len s ≤ 60) →
      (UpdateProfile repo id fullName (some p) w).outcome =
        .returns (some (.new "invalid full name length")) ∧
      (UpdateProfile repo id fullName (some p) w).world.calls = w.calls ++ [.GetByID id]) := by
  constructor
  · intro hname
    by_cases hsame : ∀ s, fullName = some s → s = A.fullName
    · have hb := fullNameBlock_of_unchanged A fullName hsame
      have hph := phoneNumberBlock_of_taken repo A other p false
        ⟨(repo.GetByID id w.db).2, w.calls ++ [.GetByID id]⟩ hp hother hid
      simp [UpdateProfile, RepositoryInterface.callGetByID, hA, hb, hph]
    · push_neg at hsame
      obtain ⟨s, rfl, hne⟩ := hsame
      have hv := (hname s rfl).resolve_left hne
      have hb := fullNameBlock_of_valid A s hne hv
      have hph := phoneNumberBlock_of_taken repo { A with fullName := s } other p true
        ⟨(repo.GetByID id w.db).2, w.calls ++ [.GetByID id]⟩ hp hother hid
      simp [UpdateProfile, RepositoryInterface.callGetByID, hA, hb, hph]
  · rintro s rfl hne hv
    have hb := fullNameBlock_of_invalid A s hne hv
    simp [UpdateProfile, RepositoryInterface.callGetByID, hA, hb]

/-- C9 (amended) on the store of two accounts: "jdoe" asks for the phone number
of "jroe" and the new full name "Johnny Doe". -/
theorem UpdateProfile_phone_taken_witness :
    (listRepo.GetByID "jdoe" [johnDoe, janeRoe]).1 = (some johnDoe, none) ∧
    "+628174546648" ≠ johnDoe.phoneNumber ∧
    (listRepo.GetByPhoneNumber "+628174546648" [johnDoe, janeRoe]).1 = (some janeRoe, none) ∧
    janeRoe.id ≠ johnDoe.id ∧
    (UpdateProfile listRepo "jdoe" (some "Johnny Doe") (some "+628174546648")
      ⟨[johnDoe, janeRoe], []⟩).outcome = .returns (some .ErrPhoneNumberAlreadyTaken) ∧
    (UpdateProfile listRepo "jdoe" (some "Johnny Doe") (some "+628174546648")
      ⟨[johnDoe, janeRoe], []⟩).world.calls =
        [] ++ [.GetByID "jdoe", .GetByPhoneNumber "+628174546648"] :=
  ⟨by decide, by decide, by decide, by decide,
    (UpdateProfile_phone_taken listRepo "jdoe" "+628174546648" (some "Johnny Doe")
      ⟨[johnDoe, janeRoe], []⟩ johnDoe janeRoe (by decide) (by decide) (by decide)
      (by decide)).1 (fun s hs => Or.inr (by cases hs; decide))⟩

/-- C10: for a stored account `A`, when each of the full name and the phone
number passed to `UpdateProfile` is absent or equal to `A`'s current value, the
call returns success, makes no call besides `GetByID` (neither
`GetByPhoneNumber` nor `Update`), and leaves the account unchanged. -/
theorem UpdateProfile_unchanged {σ : Type} (repo : RepositoryInterface σ) (id : String)
    (fullName phoneNumber : Option String) (w : World σ) (A : User)
    (hA : (repo.GetByID id w.db).1 = (some A, none))
    (hname : ∀ s, fullName = some s → s = A.fullName)
    (hphone : ∀ s, phoneNumber = some s → s = A.phoneNumber) :
    (UpdateProfile repo id fullName phoneNumber w).outcome = .returns none ∧
    (UpdateProfile repo id fullName phoneNumber w).world.calls = w.calls ++ [.GetByID id] ∧
    (UpdateProfile repo id fullName phoneNumber w).world.db = (repo.GetByID id w.db).2 ∧
    (UpdateProfile repo id fullName phoneNumber w).usr = some A := by
  have hb := fullNameBlock_of_unchanged A fullName hname
  have hph : UpdateProfile.phoneNumberBlock repo A phoneNumber false
      ⟨(repo.GetByID id w.db).2, w.calls ++ [.GetByID id]⟩ =
      (A, none, false, ⟨(repo.GetByID id w.db).2, w.calls ++ [.GetByID id]⟩) := by
    cases phoneNumber with
    | none => rfl
    | some s => simp [UpdateProfile.phoneNumberBlock, hphone s rfl]
  simp [UpdateProfile, RepositoryInterface.callGetByID, hA, hb, hph]

/-- C10 on the test "no details sent" and on a request repeating the stored
full name. -/
theorem UpdateProfile_unchanged_witness :
    (listRepo.GetByID "jdoe" [johnDoe, janeRoe]).1 = (some johnDoe, none) ∧
    (UpdateProfile listRepo "jdoe" (some "John Doe") none ⟨[johnDoe, janeRoe], []⟩).outcome =
      .returns none ∧
    (UpdateProfile listRepo "jdoe" (some "John Doe") none ⟨[johnDoe, janeRoe], []⟩).world.calls =
      [] ++ [.GetByID "jdoe"] ∧
    (UpdateProfile listRepo "jdoe" (some "John Doe") none ⟨[johnDoe, janeRoe], []⟩).world.db =
      (listRepo.GetByID "jdoe" [johnDoe, janeRoe]).2 ∧
    (UpdateProfile listRepo "jdoe" (some "John Doe") none ⟨[johnDoe, janeRoe], []⟩).usr =
      some johnDoe :=
  ⟨by decide,
    UpdateProfile_unchanged listRepo "jdoe" (some "John Doe") none ⟨[johnDoe, janeRoe], []⟩
      johnDoe (by decide) (fun s hs => by cases hs; rfl) (fun s hs => by cases hs)⟩

end app

/-! ## Profile update: the write -/

namespace app

theorem getD_of_unchanged (o : Option String) (d : String) (h : ∀ s, o = some s → s = d) :
    o.getD d = d := by
  cases o with
  | none => rfl
  | some s => exact h s rfl

theorem phoneNumberBlock_of_unchanged {σ : Type} (repo : RepositoryInterface σ) (usr : User)
    (phoneNumber : Option String) (modified : Bool) (w : World σ)
    (h : ∀ s, phoneNumber = some s → s = usr.phoneNumber) :
    UpdateProfile.phoneNumberBlock repo usr phoneNumber modified w = (usr, none, modified, w) := by
  cases phoneNumber with
  | none => rfl
  | some s => simp [UpdateProfile.phoneNumberBlock, h s rfl]

theorem phoneNumberBlock_of_free {σ : Type} (repo : RepositoryInterface σ) (usr : User)
    (other : Option User) (p : String) (modified : Bool) (w : World σ)
    (hp : p ≠ usr.phoneNumber)
    (hprobe : (repo.GetByPhoneNumber p w.db).1 = (other, none))
    (hown : ∀ o, other = some o → o.id = usr.id)
    (hv : (10 ≤ len p ∧ len p ≤ 13) ∧ BeginsWith62 p) :
    UpdateProfile.phoneNumberBlock repo usr (some p) modified w =
      ({ usr with phoneNumber := p }, none, true,
        ⟨(repo.GetByPhoneNumber p w.db).2, w.calls ++ [.GetByPhoneNumber p]⟩) := by
  have h1 := (ValidPhoneNumberLength_iff p).2 hv.1
  have h2 := (ValidPhoneNumberPrefix_iff p).2 hv.2
  cases other with
  | none =>
    simp [UpdateProfile.phoneNumberBlock, hp, RepositoryInterface.callGetByPhoneNumber, hprobe,
      User.ChangePhoneNumber, h1, h2]
  | some o =>
    simp [UpdateProfile.phoneNumberBlock, hp, RepositoryInterface.callGetByPhoneNumber, hprobe,
      User.ChangePhoneNumber, h1, h2, hown o rfl]

/-- When both blocks fall through with `modified` set, `UpdateProfile` ends in
the call of `Update` and returns its result. -/
theorem UpdateProfile_of_blocks {σ : Type} (repo : RepositoryInterface σ) (id : String)
    (fullName phoneNumber : Option String) (w w₂ : World σ) (A u₁ u₂ : User) (m₁ : Bool)
    (hA : (repo.GetByID id w.db).1 = (some A, none))
    (hb₁ : UpdateProfile.fullNameBlock A fullName = (u₁, none, m₁))
    (hb₂ : UpdateProfile.phoneNumberBlock repo u₁ phoneNumber m₁
      ⟨(repo.GetByID id w.db).2, w.calls ++ [.GetByID id]⟩ = (u₂, none, true, w₂)) :
    UpdateProfile repo id fullName phoneNumber w =
      ⟨.returns (repo.Update u₂ w₂.db).1, some u₂,
        ⟨(repo.Update u₂ w₂.db).2, w₂.calls ++ [.Update u₂]⟩⟩ := by
  simp [UpdateProfile, RepositoryInterface.callGetByID, hA, hb₁, hb₂,
    RepositoryInterface.callUpdate]

/-- C11 (the code at the race): the probe for "+628174546649" finds no owner,
a concurrent writer takes the number, `Update` reports `ErrUniqueViolation`,
and `UpdateProfile` returns that error, not `ErrPhoneNumberAlreadyTaken`. -/
theorem UpdateProfile_unique_violation_passed_through :
    (racingRepo.GetByID "jdoe" [johnDoe]).1 = (some johnDoe, none) ∧
    (racingRepo.GetByPhoneNumber "+628174546649" [johnDoe]).1 = (none, none) ∧
    (UpdateProfile racingRepo "jdoe" none (some "+628174546649") ⟨[johnDoe], []⟩).world.calls =
      [.GetByID "jdoe", .GetByPhoneNumber "+628174546649",
        .Update { johnDoe with phoneNumber := "+628174546649" }] ∧
    (racingRepo.Update { johnDoe with phoneNumber := "+628174546649" }
      [johnDoe, { janeRoe with phoneNumber := "+628174546649" }]).1 =
      some .ErrUniqueViolation ∧
    (UpdateProfile racingRepo "jdoe" none (some "+628174546649") ⟨[johnDoe], []⟩).outcome =
      .returns (some .ErrUniqueViolation) ∧
    (UpdateProfile racingRepo "jdoe" none (some "+628174546649") ⟨[johnDoe], []⟩).outcome ≠
      .returns (some .ErrPhoneNumberAlreadyTaken) := by
  decide

/-- C12: for a stored account `A`, when at least one supplied field differs
from `A`'s value, every changed value passes its validation and the probe
reports no owner of the new phone number with another id, `UpdateProfile`
calls `Update` once, after `GetByID` and the probe if any, with the account
that has `A`'s id, hash and salt and the supplied full name and phone number
(`A`'s own where none is supplied), and returns what `Update` returns. -/
theorem UpdateProfile_writes_snapshot {σ : Type} (repo : RepositoryInterface σ) (id : String)
    (fullName phoneNumber : Option String) (w : World σ) (A : User)
    (hA : (repo.GetByID id w.db).1 = (some A, none))
    (hchg : (∃ s, fullName = some s ∧ s ≠ A.fullName) ∨
      (∃ p, phoneNumber = some p ∧ p ≠ A.phoneNumber))
    (hname : ∀ s, fullName = some s → s ≠ A.fullName → 3 ≤ len s ∧ len s ≤ 60)
    (hphone : ∀ p, phoneNumber = some p → p ≠ A.phoneNumber →
      (10 ≤ len p ∧ len p ≤ 13) ∧ "+62".data <+: p.data)
    (hfree : ∀ p, phoneNumber = some p → p ≠ A.phoneNumber →
      ∃ other, (repo.GetByPhoneNumber p (repo.GetByID id w.db).2).1 = (other, none) ∧
        ∀ o, other = some o → o.id = A.id) :
    ∃ (probe : List Call) (db : σ),
      (probe = [] ∨ ∃ p, phoneNumber = some p ∧ probe = [.GetByPhoneNumber p]) ∧
      (UpdateProfile repo id fullName phoneNumber w).world.calls =
        w.calls ++ [.GetByID id] ++ probe ++ [.Update (A.withProfile fullName phoneNumber)] ∧
      (UpdateProfile repo id fullName phoneNumber w).outcome =
        .returns (repo.Update (A.withProfile fullName phoneNumber) db).1 ∧
      (UpdateProfile repo id fullName phoneNumber w).world.db =
        (repo.Update (A.withProfile fullName phoneNumber) db).2 ∧
      (UpdateProfile repo id fullName phoneNumber w).usr =
        some (A.withProfile fullName phoneNumber) := by
  by_cases hn : ∀ s, fullName = some s → s = A.fullName
  · -- the full name stays, so the phone number changes
    have hb₁ := fullNameBlock_of_unchanged A fullName hn
    obtain ⟨p, rfl, hp⟩ : ∃ p, phoneNumber = some p ∧ p ≠ A.phoneNumber := by
      rcases hchg with ⟨s, hs, hne⟩ | h
      · exact absurd (hn s hs) hne
      · exact h
    obtain ⟨other, hprobe, hown⟩ := hfree p rfl hp
    have hb₂ := phoneNumberBlock_of_free repo A other p false
      ⟨(repo.GetByID id w.db).2, w.calls ++ [.GetByID id]⟩ hp hprobe hown (hphone p rfl hp)
    have hu : ({ A with phoneNumber := p } : User) = A.withProfile fullName (some p) := by
      simp [User.withProfile, getD_of_unchanged fullName A.fullName hn]
    rw [UpdateProfile_of_blocks repo id fullName (some p) w _ A _ _ _ hA hb₁ hb₂, hu]
    exact ⟨[.GetByPhoneNumber p], _, Or.inr ⟨p, rfl, rfl⟩, by simp, rfl, rfl, rfl⟩
  · push_neg at hn
    obtain ⟨s, rfl, hs⟩ := hn
    have hb₁ := fullNameBlock_of_valid A s hs (hname s rfl hs)
    by_cases hq : ∀ p, phoneNumber = some p → p = A.phoneNumber
    · have hb₂ := phoneNumberBlock_of_unchanged repo { A with fullName := s } phoneNumber true
        ⟨(repo.GetByID id w.db).2, w.calls ++ [.GetByID id]⟩ hq
      have hu : ({ A with fullName := s } : User) = A.withProfile (some s) phoneNumber := by
        simp [User.withProfile, getD_of_unchanged phoneNumber A.phoneNumber hq]
      rw [UpdateProfile_of_blocks repo id (some s) phoneNumber w _ A _ _ _ hA hb₁ hb₂, hu]
      exact ⟨[], _, Or.inl rfl, by simp, rfl, rfl, rfl⟩
    · push_neg at hq
      obtain ⟨p, rfl, hp⟩ := hq
      obtain ⟨other, hprobe, hown⟩ := hfree p rfl hp
      have hb₂ := phoneNumberBlock_of_free repo { A with fullName := s } other p true
        ⟨(repo.GetByID id w.db).2, w.calls ++ [.GetByID id]⟩ hp hprobe hown (hphone p rfl hp)
      have hu : ({ A with fullName := s, phoneNumber := p } : User) =
          A.withProfile (some s) (some p) := rfl
      rw [UpdateProfile_of_blocks repo id (some s) (some p) w _ A _ _ _ hA hb₁ hb₂]
      exact ⟨[.GetByPhoneNumber p], _, Or.inr ⟨p, rfl, rfl⟩, by simp [hu], rfl, rfl, rfl⟩

end app

/-! ## Registration form errors -/

namespace handler

theorem validateRegistrationForm_id (form : UserRegistrationForm) :
    validateRegistrationForm id form =
      registrationErrorsInOrder (ValidPhoneNumberLength form.PhoneNumber)
        (ValidPhoneNumberPrefix form.PhoneNumber) (ValidFullNameLength form.FullName)
        (ValidPasswordStrength form.Password) := by
  unfold validateRegistrationForm registrationFailures
  cases ValidPhoneNumberLength form.PhoneNumber <;>
    cases ValidPhoneNumberPrefix form.PhoneNumber <;>
    cases ValidFullNameLength form.FullName <;>
    cases ValidPasswordStrength form.Password <;> rfl

theorem registrationErrorsInOrder_spec (a b c d : Bool) :
    RegistrationErrors a b c d (registrationErrorsInOrder a b c d) := by
  unfold RegistrationErrors
  cases a <;> cases b <;> cases c <;> cases d <;> decide

theorem RegistrationErrors_of_perm {a b c d : Bool} {r r' : List FieldError}
    (hp : r.Perm r') (h : RegistrationErrors a b c d r') : RegistrationErrors a b c d r := by
  obtain ⟨h1, h2, h3, h4, h5, h6, h7⟩ := h
  have hmem : ∀ e, e ∈ r ↔ e ∈ r' := fun e => hp.mem_iff
  refine ⟨?_, ?_, ?_, ?_, ?_, ?_, ?_⟩
  · rw [← h1]
    constructor
    · rintro rfl
      exact hp.symm.eq_nil
    · rintro rfl
      exact hp.eq_nil
  · intro ha
    obtain ⟨e, he, hh⟩ := h2 ha
    exact ⟨e, (hmem e).2 he, hh⟩
  · intro hb
    obtain ⟨e, he, hh⟩ := h3 hb
    exact ⟨e, (hmem e).2 he, hh⟩
  · intro hc
    obtain ⟨e, he, hh⟩ := h4 hc
    exact ⟨e, (hmem e).2 he, hh⟩
  · intro hd
    obtain ⟨e, he, hh⟩ := h5 hd
    exact ⟨e, (hmem e).2 he, hh⟩
  · exact ((hp.map fun e => e.Name).nodup_iff).2 h6
  · intro e he
    exact h7 e ((hmem e).1 he)

/-- C16: `validateRegistrationForm` returns an empty list if and only if the
four validators accept; otherwise, for each validator that rejects, the list
has an entry named after its field whose codes contain that validator's code,
with at most one entry per field and no code for a validator that accepts.
This holds for every order in which `range` visits the map. -/
theorem validateRegistrationForm_errors (rangeOrder : Failures → Failures)
    (horder : ∀ m, (rangeOrder m).Perm m) (form : UserRegistrationForm) :
    (validateRegistrationForm rangeOrder form = [] ↔
      ValidPhoneNumberLength form.PhoneNumber = true ∧
      ValidPhoneNumberPrefix form.PhoneNumber = true ∧
      ValidFullNameLength form.FullName = true ∧
      ValidPasswordStrength form.Password = true) ∧
    (ValidPhoneNumberLength form.PhoneNumber = false →
      ∃ e ∈ validateRegistrationForm rangeOrder form,
        e.Name = "phoneNumber" ∧ "PHONE_NUMBER_LENGTH" ∈ e.Codes) ∧
    (ValidPhoneNumberPrefix form.PhoneNumber = false →
      ∃ e ∈ validateRegistrationForm rangeOrder form,
        e.Name = "phoneNumber" ∧ "PHONE_NUMBER_FORMAT" ∈ e.Codes) ∧
    (ValidFullNameLength form.FullName = false →
      ∃ e ∈ validateRegistrationForm rangeOrder form,
        e.Name = "fullName" ∧ "FULL_NAME_LENGTH" ∈ e.Codes) ∧
    (ValidPasswordStrength form.Password = false →
      ∃ e ∈ validateRegistrationForm rangeOrder form,
        e.Name = "password" ∧ "PASSWORD_STRENGTH" ∈ e.Codes) ∧
    ((validateRegistrationForm rangeOrder form).map fun e => e.Name).Nodup ∧
    (∀ e ∈ validateRegistrationForm rangeOrder form, ∀ c ∈ e.Codes,
      (e.Name = "phoneNumber" ∧ c = "PHONE_NUMBER_LENGTH" ∧
        ValidPhoneNumberLength form.PhoneNumber = false) ∨
      (e.Name = "phoneNumber" ∧ c = "PHONE_NUMBER_FORMAT" ∧
        ValidPhoneNumberPrefix form.PhoneNumber = false) ∨
      (e.Name = "fullName" ∧ c = "FULL_NAME_LENGTH" ∧
        ValidFullNameLength form.FullName = false) ∨
      (e.Name = "password" ∧ c = "PASSWORD_STRENGTH" ∧
        ValidPasswordStrength form.Password = false)) := by
  have hp : (validateRegistrationForm rangeOrder form).Perm (validateRegistrationForm id form) :=
    (horder (registrationFailures form)).map _
  rw [validateRegistrationForm_id] at hp
  exact RegistrationErrors_of_perm hp (registrationErrorsInOrder_spec _ _ _ _)

/-- C16 on the form of the test "phoneNumber too short" and on a form that
fails every check, with the map visited in reverse order of insertion. -/
theorem validateRegistrationForm_errors_witness :
    (∀ m : Failures, (List.reverse m).Perm m) ∧
    validateRegistrationForm List.reverse ⟨"+62817454", "John Doe", "Secret123!"⟩ =
      [⟨"phoneNumber", ["PHONE_NUMBER_LENGTH"]⟩] ∧
    validateRegistrationForm List.reverse ⟨"0817454", "Jo", "secret"⟩ =
      [⟨"password", ["PASSWORD_STRENGTH"]⟩, ⟨"fullName", ["FULL_NAME_LENGTH"]⟩,
        ⟨"phoneNumber", ["PHONE_NUMBER_LENGTH", "PHONE_NUMBER_FORMAT"]⟩] ∧
    ((validateRegistrationForm List.reverse ⟨"0817454", "Jo", "secret"⟩).map
      fun e => e.Name).Nodup :=
  ⟨fun m => List.reverse_perm m, by decide, by decide,
    (validateRegistrationForm_errors List.reverse (fun m => List.reverse_perm m)
      ⟨"0817454", "Jo", "secret"⟩).2.2.2.2.2.1⟩

end handler

/-! ## Profile update: witness of the write, absent account -/

namespace app

/-- C12 on the test "update both": the stored account "jdoe" takes the full
name "John Wick" and the free phone number "+628174546649". -/
theorem UpdateProfile_writes_snapshot_witness :
    (listRepo.GetByID "jdoe" [johnDoe, janeRoe]).1 = (some johnDoe, none) ∧
    "John Wick" ≠ johnDoe.fullName ∧
    (3 ≤ len "John Wick" ∧ len "John Wick" ≤ 60) ∧
    ((10 ≤ len "+628174546649" ∧ len "+628174546649" ≤ 13) ∧
      "+62".data <+: "+628174546649".data) ∧
    (listRepo.GetByPhoneNumber "+628174546649" [johnDoe, janeRoe]).1 = (none, none) ∧
    (UpdateProfile listRepo "jdoe" (some "John Wick") (some "+628174546649")
      ⟨[johnDoe, janeRoe], []⟩).world.calls =
      [.GetByID "jdoe", .GetByPhoneNumber "+628174546649",
        .Update ⟨"jdoe", "+628174546649", "John Wick", johnDoe.passwordHash,
          johnDoe.passwordSalt⟩] ∧
    (UpdateProfile listRepo "jdoe" (some "John Wick") (some "+628174546649")
      ⟨[johnDoe, janeRoe], []⟩).outcome = .returns none ∧
    ∃ (probe : List Call) (db : List User),
      (probe = [] ∨
        ∃ p, some "+628174546649" = some p ∧ probe = [.GetByPhoneNumber p]) ∧
      (UpdateProfile listRepo "jdoe" (some "John Wick") (some "+628174546649")
        ⟨[johnDoe, janeRoe], []⟩).world.calls =
        [] ++ [.GetByID "jdoe"] ++ probe ++
          [.Update (johnDoe.withProfile (some "John Wick") (some "+628174546649"))] ∧
      (UpdateProfile listRepo "jdoe" (some "John Wick") (some "+628174546649")
        ⟨[johnDoe, janeRoe], []⟩).outcome =
        .returns (listRepo.Update
          (johnDoe.withProfile (some "John Wick") (some "+628174546649")) db).1 ∧
      (UpdateProfile listRepo "jdoe" (some "John Wick") (some "+628174546649")
        ⟨[johnDoe, janeRoe], []⟩).world.db =
        (listRepo.Update
          (johnDoe.withProfile (some "John Wick") (some "+628174546649")) db).2 ∧
      (UpdateProfile listRepo "jdoe" (some "John Wick") (some "+628174546649")
        ⟨[johnDoe, janeRoe], []⟩).usr =
        some (johnDoe.withProfile (some "John Wick") (some "+628174546649")) :=
  ⟨by decide, by decide, by decide, by decide, by decide, by decide, by decide,
    UpdateProfile_writes_snapshot listRepo "jdoe" (some "John Wick") (some "+628174546649")
      ⟨[johnDoe, janeRoe], []⟩ johnDoe (by decide)
      (Or.inl ⟨"John Wick", rfl, by decide⟩)
      (fun s hs _ => by cases hs; decide)
      (fun p hp _ => by cases hp; decide)
      (fun p hp _ => by cases hp; exact ⟨none, by decide, fun o ho => by cases ho⟩)⟩

/-- C17 (the code on an absent account): `GetByID` reports no account and no
error for "ghost"; with a full name or a phone number supplied `UpdateProfile`
dereferences the nil account and panics, and with neither supplied it returns
nil, not an error.  No call besides `GetByID` is made. -/
theorem UpdateProfile_absent_account :
    (listRepo.GetByID "ghost" [johnDoe]).1 = (none, none) ∧
    (UpdateProfile listRepo "ghost" (some "Jane Doe") none ⟨[johnDoe], []⟩).outcome = .panics ∧
    (UpdateProfile listRepo "ghost" none (some "+628174546649") ⟨[johnDoe], []⟩).outcome =
      .panics ∧
    (UpdateProfile listRepo "ghost" none none ⟨[johnDoe], []⟩).outcome = .returns none ∧
    (UpdateProfile listRepo "ghost" (some "Jane Doe") none ⟨[johnDoe], []⟩).world.calls =
      [.GetByID "ghost"] ∧
    (UpdateProfile listRepo "ghost" none none ⟨[johnDoe], []⟩).world.calls =
      [.GetByID "ghost"] := by
  decide

end app

/-! ## Access tokens -/

namespace handler

theorem unix_diff_of_whole_seconds (t d : Int) (h : d % 1000000000 = 0) :
    (t + d) / 1000000000 - t / 1000000000 = d / 1000000000 := by
  omega

theorem unix_diff_bounds (t d : Int) :
    d / 1000000000 ≤ (t + d) / 1000000000 - t / 1000000000 ∧
      (t + d) / 1000000000 - t / 1000000000 ≤ d / 1000000000 + 1 := by
  omega

/-- C13 (as stated, refuted): with `Expiry` one and a half seconds and the
token issued 0.6 s after a whole second, `expiresAt - issuedAt` is 2, neither
the duration in seconds nor its whole seconds. -/
theorem claims_expiry_not_whole_seconds :
    (0 : Int) < 1500000000 ∧
    (TokenCreator.mk sampleSign 1500000000).expiry = 1500000000 ∧
    ((TokenCreator.mk sampleSign 1500000000).claims 600000000 johnDoe).IssuedAt = 0 ∧
    ((TokenCreator.mk sampleSign 1500000000).claims 600000000 johnDoe).ExpiresAt = 2 ∧
    (((TokenCreator.mk sampleSign 1500000000).claims 600000000 johnDoe).ExpiresAt -
      ((TokenCreator.mk sampleSign 1500000000).claims 600000000 johnDoe).IssuedAt) *
        1000000000 ≠ (TokenCreator.mk sampleSign 1500000000).expiry ∧
    ((TokenCreator.mk sampleSign 1500000000).claims 600000000 johnDoe).ExpiresAt -
      ((TokenCreator.mk sampleSign 1500000000).claims 600000000 johnDoe).IssuedAt ≠
        (TokenCreator.mk sampleSign 1500000000).expiry / 1000000000 := by
  decide

/-- C13 (amended): `CreateAccessToken` signs the claim set with subject the
account's id, issuedAt the Unix second of `now` and expiresAt the Unix second
of `now` plus the validity duration, which is `Expiry` when positive and one
hour otherwise; `expiresAt - issuedAt` is the duration in seconds when the
duration is a whole number of seconds (3600 by default), and in general the
duration's whole seconds or one more. -/
theorem CreateAccessToken_claims {σ : Type} (tc : TokenCreator) (now : Time) (usr : User)
    (w : World σ) :
    (tc.CreateAccessToken now usr w).1 =
      tc.SignedString ⟨usr.id, Time.Unix now, Time.Unix (now + tc.expiry)⟩ ∧
    (tc.CreateAccessToken now usr w).2.calls =
      w.calls ++ [.SignedString usr.id (Time.Unix now) (Time.Unix (now + tc.expiry))] ∧
    (0 < tc.Expiry → tc.expiry = tc.Expiry) ∧
    (tc.Expiry ≤ 0 → tc.expiry = 3600 * 1000000000) ∧
    (tc.expiry % 1000000000 = 0 →
      Time.Unix (now + tc.expiry) - Time.Unix now = tc.expiry / 1000000000) ∧
    (tc.Expiry ≤ 0 → Time.Unix (now + tc.expiry) - Time.Unix now = 3600) ∧
    (tc.expiry / 1000000000 ≤ Time.Unix (now + tc.expiry) - Time.Unix now ∧
      Time.Unix (now + tc.expiry) - Time.Unix now ≤ tc.expiry / 1000000000 + 1) := by
  have hpos : 0 < tc.Expiry → tc.expiry = tc.Expiry := by
    intro h
    simp [TokenCreator.expiry, not_le.2 h]
  have hdef : tc.Expiry ≤ 0 → tc.expiry = 3600 * 1000000000 := by
    intro h
    simp [TokenCreator.expiry, h, Hour]
  refine ⟨rfl, rfl, hpos, hdef, ?_, ?_, ?_⟩
  · intro h
    exact unix_diff_of_whole_seconds now tc.expiry h
  · intro h
    rw [hdef h]
    exact unix_diff_of_whole_seconds now (3600 * 1000000000) (by decide)
  · exact unix_diff_bounds now tc.expiry

/-- What `VerifyIdentify` adds to the library: it returns the subject of the
claims the library parsed when the library reports no error and a valid token,
and an error otherwise. -/
theorem VerifyIdentify_eq (tv : TokenVerifier) (tokenString : String) :
    (∀ claim, tv.ParseWithClaims tokenString = .ok (claim, true) →
      tv.VerifyIdentify tokenString = (claim.Subject, none)) ∧
    (∀ claim, tv.ParseWithClaims tokenString = .ok (claim, false) →
      tv.VerifyIdentify tokenString = ("", some (.new "invalid token"))) ∧
    (∀ err, tv.ParseWithClaims tokenString = .error err →
      tv.VerifyIdentify tokenString = ("", some err)) := by
  refine ⟨?_, ?_, ?_⟩ <;> intro x h <;> simp [TokenVerifier.VerifyIdentify, h]

end handler

/-! ## Password length in characters -/

namespace user

/-- C15 (the code on multi-byte characters): "A1!éé" has 5 characters and 7
bytes and is accepted; a password of 34 characters and 65 bytes with an
uppercase letter, a number and a special character is rejected. -/
theorem ValidPasswordStrength_counts_bytes :
    "A1!éé".length = 5 ∧ len "A1!éé" = 7 ∧ ValidPasswordStrength "A1!éé" = true ∧
    accentedPassword.length = 34 ∧ len accentedPassword = 65 ∧
    containsUppercase accentedPassword = true ∧ containsNumber accentedPassword = true ∧
    containsSpecialCharacter accentedPassword = true ∧
    ValidPasswordStrength accentedPassword = false := by
  decide

end user

end GoMyProfile
